import Mathlib

/-!
Verification of the OpenClaw model-resolution core and plugin compaction bridge.

The data model (`ModelApi`, `ModelDefinitionConfig`, `ModelProviderConfig`,
`ModelsConfig`, ...) is embedded from `src/config/types.models.ts`. The
compaction bridge handlers are embedded from the
`pluginCompactionBridgeExtension` code in the same file, with the external
hook runner (`getGlobalHookRunner`) passed as an explicit optional argument
and the module-level `bridgeSessionKey` as explicit state.

The builder and resolver (`buildInlineProviderModels`, `resolveModel`) are
declared in `src/agents/pi-embedded-runner/model.ts`, which is not part of
the snapshot (only its test file is); they are modelled from the spec
(sections 4.1 and 4.2), as marked on each definition.

TypeScript `Record<string, T>` values are embedded as association lists
`List (String × T)` to preserve key iteration order; optional fields become
`Option`; JS `undefined` is `none`.
-/

set_option linter.unusedVariables false

/-- The `ModelApi` union type from `types.models.ts`: the wire-protocol
dialect a provider or model speaks. -/
inductive ModelApi where
  | openaiCompletions
  | openaiResponses
  | azureOpenaiResponses
  | anthropicMessages
  | googleGenerativeAi
  | githubCopilot
  | bedrockConverseStream
  deriving DecidableEq, Repr

/-- The `maxTokensField` union of `ModelCompatConfig`. -/
inductive MaxTokensField where
  | maxCompletionTokens
  | maxTokensName
  deriving DecidableEq, Repr

/-- `ModelCompatConfig` from `types.models.ts`. -/
structure ModelCompatConfig where
  supportsStore : Option Bool := none
  supportsDeveloperRole : Option Bool := none
  supportsReasoningEffort : Option Bool := none
  maxTokensField : Option MaxTokensField := none
  deriving DecidableEq, Repr

/-- `ModelProviderAuthMode` from `types.models.ts`. -/
inductive ModelProviderAuthMode where
  | apiKey
  | awsSdk
  | oauth
  | token
  deriving DecidableEq, Repr

/-- An input modality: element type of `ModelDefinitionConfig.input`. -/
inductive InputModality where
  | text
  | image
  deriving DecidableEq, Repr

/-- The `cost` record of `ModelDefinitionConfig`: four non-negative rates. -/
structure ModelCost where
  inputRate : Nat
  outputRate : Nat
  cacheRead : Nat
  cacheWrite : Nat
  deriving DecidableEq, Repr

/-- `ModelDefinitionConfig` from `types.models.ts`: a model as declared
inline under a provider. Note it has `azureDeploymentName` but no
`azureApiVersion` field. -/
structure ModelDefinitionConfig where
  id : String
  name : String
  api : Option ModelApi := none
  reasoning : Bool
  input : List InputModality
  cost : ModelCost
  contextWindow : Nat
  maxTokens : Nat
  headers : Option (List (String × String)) := none
  compat : Option ModelCompatConfig := none
  azureDeploymentName : Option String := none
  deriving DecidableEq, Repr

/-- `ModelProviderConfig` from `types.models.ts`. -/
structure ModelProviderConfig where
  baseUrl : String
  apiKey : Option String := none
  auth : Option ModelProviderAuthMode := none
  api : Option ModelApi := none
  headers : Option (List (String × String)) := none
  authHeader : Option Bool := none
  azureDeploymentName : Option String := none
  azureApiVersion : Option String := none
  models : List ModelDefinitionConfig
  deriving DecidableEq, Repr

/-- `BedrockDiscoveryConfig` from `types.models.ts`. -/
structure BedrockDiscoveryConfig where
  enabled : Option Bool := none
  region : Option String := none
  providerFilter : Option (List String) := none
  refreshInterval : Option Nat := none
  defaultContextWindow : Option Nat := none
  defaultMaxTokens : Option Nat := none
  deriving DecidableEq, Repr

/-- The `mode` union of `ModelsConfig`. -/
inductive ModelsMode where
  | merge
  | replace
  deriving DecidableEq, Repr

/-- `ModelsConfig` from `types.models.ts`; the `providers` record is an
association list preserving iteration order. -/
structure ModelsConfig where
  mode : Option ModelsMode := none
  providers : Option (List (String × ModelProviderConfig)) := none
  bedrockDiscovery : Option BedrockDiscoveryConfig := none
  deriving DecidableEq, Repr

/-- The slice of `OpenClawConfig` consumed by the resolver: its optional
`models` section. -/
structure OpenClawConfig where
  models : Option ModelsConfig := none
  deriving DecidableEq, Repr

/-- Modelled from the spec: the `ResolvedModel` output entity of §3 — a
model definition plus injected `provider` (trimmed key), inherited
`baseUrl`, `api` and Azure fields. `baseUrl` is optional because the
fallback for a missing provider has no base URL (§4.2 step 3). The source
`model.ts` declaring it is not in the snapshot. -/
structure ResolvedModel where
  id : String
  name : String
  api : Option ModelApi := none
  reasoning : Bool
  input : List InputModality
  cost : ModelCost
  contextWindow : Nat
  maxTokens : Nat
  headers : Option (List (String × String)) := none
  compat : Option ModelCompatConfig := none
  azureDeploymentName : Option String := none
  azureApiVersion : Option String := none
  provider : String
  baseUrl : Option String := none
  deriving DecidableEq, Repr

/-- Modelled from the spec: §4.1 — expansion of one declared model under
one provider into a `ResolvedModel`: `provider` is the trimmed key,
`baseUrl` is inherited from the provider, `api` and `azureDeploymentName`
are model-level if present else provider-level, `azureApiVersion` comes
from the provider (the model schema has no such field), all other fields
copied through unchanged. The source `model.ts` is not in the snapshot. -/
def buildOneModel (providerKey : String) (p : ModelProviderConfig)
    (m : ModelDefinitionConfig) : ResolvedModel :=
  { id := m.id
    name := m.name
    api := m.api.or p.api
    reasoning := m.reasoning
    input := m.input
    cost := m.cost
    contextWindow := m.contextWindow
    maxTokens := m.maxTokens
    headers := m.headers
    compat := m.compat
    azureDeploymentName := m.azureDeploymentName.or p.azureDeploymentName
    azureApiVersion := p.azureApiVersion
    provider := providerKey.trim
    baseUrl := some p.baseUrl }

/-- Modelled from the spec: §4.1 `buildInlineProviderModels` — expand the
provider mapping into a flat list of `ResolvedModel`, providers in mapping
iteration order, each provider's models in declared order. The source
`model.ts` is not in the snapshot. -/
def buildInlineProviderModels
    (providers : List (String × ModelProviderConfig)) : List ResolvedModel :=
  providers.flatMap fun kp => kp.2.models.map (buildOneModel kp.1 kp.2)

/-- Modelled from the spec: §4.2 step 1 — look up `providerId` in
`config.models.providers` (exact key match; first entry wins). -/
def lookupProvider (config : OpenClawConfig) (providerId : String) :
    Option ModelProviderConfig :=
  (((config.models.bind fun ms => ms.providers).getD []).find?
    fun kp => kp.1 == providerId).map fun kp => kp.2

/-- Modelled from the spec: §4.2 step 3 — the `api` dialect of the fallback
descriptor: inherit the provider's configured `api` when set; otherwise the
literal provider id `azure-openai` defaults to `azure-openai-responses`;
otherwise undefined. -/
def fallbackApi (providerId : String) (provider : Option ModelProviderConfig) :
    Option ModelApi :=
  match provider.bind fun p => p.api with
  | some a => some a
  | none =>
    if providerId == "azure-openai" then some ModelApi.azureOpenaiResponses
    else none

/-- Modelled from the spec: §4.2 step 3 — the synthesized fallback
`ResolvedModel`: requested ids verbatim (provider id not trimmed),
`baseUrl` and Azure fields copied from the provider config when present,
conservative zero defaults for capability and cost metadata. -/
def fallbackModel (providerId modelId : String)
    (provider : Option ModelProviderConfig) : ResolvedModel :=
  { id := modelId
    name := modelId
    api := fallbackApi providerId provider
    reasoning := false
    input := [InputModality.text]
    cost := { inputRate := 0, outputRate := 0, cacheRead := 0, cacheWrite := 0 }
    contextWindow := 0
    maxTokens := 0
    headers := none
    compat := none
    azureDeploymentName := provider.bind fun p => p.azureDeploymentName
    azureApiVersion := provider.bind fun p => p.azureApiVersion
    provider := providerId
    baseUrl := provider.map fun p => p.baseUrl }

/-- Modelled from the spec: §4.2 step 4 — the resolver's return record,
`{ model: ResolvedModel | undefined, ... }`. -/
structure ResolveResult where
  model : Option ResolvedModel
  deriving DecidableEq, Repr

/-- Modelled from the spec: §4.2 step 2 — when the provider exists, run the
inline builder restricted to that provider and search its model list for an
entry whose `id` equals `modelId` (exact, case-sensitive match). -/
def inlineMatch (providerId modelId : String)
    (provider : Option ModelProviderConfig) : Option ResolvedModel :=
  provider.bind fun p =>
    (buildInlineProviderModels [(providerId, p)]).find? fun rm =>
      rm.id == modelId

/-- Modelled from the spec: §4.2 `resolveModel` — if no provider id is
given (empty string), construction is impossible and `model` is `none`
(the sole hard failure path); otherwise look the provider up, search its
inline-built models for an exact `id` match, and when the search fails
synthesize the fallback descriptor. `agentContextPath` is opaque and
threaded through without interpretation. The source `model.ts` is not in
the snapshot. -/
def resolveModel (providerId modelId agentContextPath : String)
    (config : OpenClawConfig) : ResolveResult :=
  if providerId == "" then { model := none }
  else
    match inlineMatch providerId modelId (lookupProvider config providerId) with
    | some rm => { model := some rm }
    | none =>
      { model :=
          some (fallbackModel providerId modelId
            (lookupProvider config providerId)) }

/-- A chat message carried by a compaction event; its payload is opaque to
the bridge, which only counts and forwards messages. -/
structure AgentMessage where
  payload : String
  deriving DecidableEq, Repr

/-- The `preparation` record of a `session_before_compact` event:
`messagesToSummarize` (possibly absent) and `tokensBefore`. -/
structure CompactionPreparation where
  messagesToSummarize : Option (List AgentMessage)
  tokensBefore : Nat
  deriving DecidableEq, Repr

/-- A `session_before_compact` event as consumed by the bridge. -/
structure SessionBeforeCompactEvent where
  preparation : CompactionPreparation
  deriving DecidableEq, Repr

/-- A `session_compact` event; the bridge reads nothing from it. -/
structure SessionCompactEvent where
  deriving DecidableEq, Repr

/-- The argument record of `runBeforeCompaction`:
`{messageCount, tokenCount, messages}`. -/
structure BeforeCompactionInput where
  messageCount : Nat
  tokenCount : Nat
  messages : Option (List AgentMessage)
  deriving DecidableEq, Repr

/-- The argument record of `runAfterCompaction`:
`{messageCount, compactedCount}`. -/
structure AfterCompactionInput where
  messageCount : Nat
  compactedCount : Nat
  deriving DecidableEq, Repr

/-- The hook invocation context `{sessionKey}` passed to the hook runner. -/
structure HookContext where
  sessionKey : Option String
  deriving DecidableEq, Repr

/-- A plugin hook result; `cancel` may be absent (`undefined`). -/
structure BeforeCompactionResult where
  cancel : Option Bool
  deriving DecidableEq, Repr

/-- The cancellation record `{cancel: true}` the bridge returns to abort
compaction. -/
structure CancelResult where
  cancel : Bool
  deriving DecidableEq, Repr

/-- The external plugin hook runner interface used by the bridge: hook
registration query and the before-compaction hook invocation. The
after-compaction invocation has no observable return, so the embedded
`session_compact` handler reports the call it would make instead. -/
structure HookRunner where
  hasHooks : String → Bool
  runBeforeCompaction :
    BeforeCompactionInput → HookContext → Option BeforeCompactionResult

/-- Truthiness of `result?.cancel` for an optional hook result. -/
def cancelRequested (result : Option BeforeCompactionResult) : Bool :=
  match result with
  | some r => r.cancel.getD false
  | none => false

/-- The `{messageCount, tokenCount, messages}` record the
`session_before_compact` handler builds from the event (from
`types.models.ts`: `messagesToSummarize?.length ?? 0` and
`tokensBefore`). -/
def beforeCompactionInput (event : SessionBeforeCompactEvent) :
    BeforeCompactionInput :=
  { messageCount :=
      (event.preparation.messagesToSummarize.map fun ms => ms.length).getD 0
    tokenCount := event.preparation.tokensBefore
    messages := event.preparation.messagesToSummarize }

/-- The `session_before_compact` handler of
`pluginCompactionBridgeExtension` (from `types.models.ts`): the global hook
runner is the `hookRunner` argument (`none` when `getGlobalHookRunner`
yields nothing) and the module variable `bridgeSessionKey` is the
`sessionKey` argument. Returns the value the handler hands back to the
host: `some {cancel := true}` to abort compaction, `none` for
`undefined`. -/
def sessionBeforeCompactHandler (hookRunner : Option HookRunner)
    (sessionKey : Option String) (event : SessionBeforeCompactEvent) :
    Option CancelResult :=
  match hookRunner with
  | none => none
  | some hr =>
    if hr.hasHooks "before_compaction" then
      if cancelRequested
          (hr.runBeforeCompaction (beforeCompactionInput event)
            { sessionKey := sessionKey }) then
        some { cancel := true }
      else none
    else none

/-- The hook invocation the `session_before_compact` handler performs:
`none` when no runner exists or no `before_compaction` hook is registered,
otherwise the `(input, context)` pair passed to `runBeforeCompaction`
(from `types.models.ts`). -/
def sessionBeforeCompactHookCall (hookRunner : Option HookRunner)
    (sessionKey : Option String) (event : SessionBeforeCompactEvent) :
    Option (BeforeCompactionInput × HookContext) :=
  match hookRunner with
  | none => none
  | some hr =>
    if hr.hasHooks "before_compaction" then
      some (beforeCompactionInput event, { sessionKey := sessionKey })
    else none

/-- The `session_compact` handler of `pluginCompactionBridgeExtension`
(from `types.models.ts`): when a runner exists and an `after_compaction`
hook is registered, it invokes `runAfterCompaction` with zero counts and
the session-key context; the returned value is that `(input, context)`
pair, `none` when no call is made. -/
def sessionCompactHandler (hookRunner : Option HookRunner)
    (sessionKey : Option String) (event : SessionCompactEvent) :
    Option (AfterCompactionInput × HookContext) :=
  match hookRunner with
  | none => none
  | some hr =>
    if hr.hasHooks "after_compaction" then
      some ({ messageCount := 0, compactedCount := 0 },
            { sessionKey := sessionKey })
    else none

/-- `setPluginCompactionBridgeSessionKey` (from `types.models.ts`) as a
state transformer on the module-level `bridgeSessionKey` variable: it
overwrites the state with the supplied key. -/
def setPluginCompactionBridgeSessionKey (state key : Option String) :
    Option String :=
  key

/-- The `bridgeSessionKey` value after a sequence of setter calls, starting
from the module's initial `undefined`. -/
def runSetters (ops : List (Option String)) : Option String :=
  ops.foldl setPluginCompactionBridgeSessionKey none

/-- A minimal model definition, mirroring `makeModel` in `model.test.ts`. -/
def sampleModel (id : String) : ModelDefinitionConfig :=
  { id := id
    name := id
    reasoning := false
    input := [InputModality.text]
    cost := { inputRate := 0, outputRate := 0, cacheRead := 0, cacheWrite := 0 }
    contextWindow := 1
    maxTokens := 1 }

/-- Provider with one declared model, as in the first builder test. -/
def alphaProvider : ModelProviderConfig :=
  { baseUrl := "http://alpha.local", models := [sampleModel "alpha-model"] }

/-- Provider with an empty model list, as in the fallback resolver test. -/
def customProvider : ModelProviderConfig :=
  { baseUrl := "http://localhost:9000", models := [] }

/-- Configuration registering `customProvider` under key `custom`. -/
def sampleConfig : OpenClawConfig :=
  { models := some { providers := some [("custom", customProvider)] } }

/-- Configuration registering `alphaProvider` under key `alpha`. -/
def alphaConfig : OpenClawConfig :=
  { models := some { providers := some [("alpha", alphaProvider)] } }

/-- Azure provider with no explicit `api`, as in the Azure resolver test. -/
def azureProvider : ModelProviderConfig :=
  { baseUrl := "https://myresource.openai.azure.com", models := [] }

/-- Configuration registering `azureProvider` under key `azure-openai`. -/
def azureConfig : OpenClawConfig :=
  { models := some { providers := some [("azure-openai", azureProvider)] } }

/-- A hook runner whose hooks are all registered and whose
before-compaction hook requests cancellation. -/
def demoRunner : HookRunner :=
  { hasHooks := fun _ => true
    runBeforeCompaction := fun _ _ => some { cancel := some true } }

/-- A concrete `session_before_compact` event. -/
def demoEvent : SessionBeforeCompactEvent :=
  { preparation :=
      { messagesToSummarize := some [{ payload := "hello" }]
        tokensBefore := 42 } }

/-- The hook invocation the bridge performs on `demoEvent` after the
session key was last set to `beta-key`. -/
def demoCall : BeforeCompactionInput × HookContext :=
  (beforeCompactionInput demoEvent, { sessionKey := some "beta-key" })

/-- The descriptor built for `alpha-model` under key `" alpha "`. -/
def alphaResolved : ResolvedModel :=
  buildOneModel " alpha " alphaProvider (sampleModel "alpha-model")

/-- Azure provider with full Azure metadata and one declared model, as in
the Azure builder tests. -/
def azureFullProvider : ModelProviderConfig :=
  { baseUrl := "https://myresource.openai.azure.com"
    api := some ModelApi.azureOpenaiResponses
    azureDeploymentName := some "my-deployment"
    azureApiVersion := some "2024-02-15-preview"
    models := [sampleModel "gpt-4o"] }

/-- The descriptor built for `gpt-4o` under key `azure-openai`. -/
def azureResolved : ResolvedModel :=
  buildOneModel "azure-openai" azureFullProvider (sampleModel "gpt-4o")

theorem mem_buildInline_iff {providers : List (String × ModelProviderConfig)}
    {rm : ResolvedModel} :
    rm ∈ buildInlineProviderModels providers ↔
      ∃ kp ∈ providers, ∃ m ∈ kp.2.models, buildOneModel kp.1 kp.2 m = rm := by
  simp [buildInlineProviderModels]

theorem find?_builder_eq_none {providerId modelId : String}
    {pc : ModelProviderConfig}
    (hmiss : ∀ m ∈ pc.models, m.id ≠ modelId) :
    (buildInlineProviderModels [(providerId, pc)]).find?
      (fun rm => rm.id == modelId) = none := by
  rw [List.find?_eq_none]
  intro x hx
  rw [mem_buildInline_iff] at hx
  obtain ⟨kp, hkp, m, hm, rfl⟩ := hx
  rw [List.mem_singleton] at hkp
  subst hkp
  simpa [buildOneModel] using hmiss m hm

theorem foldl_setKey_last (ops : List (Option String)) (init : Option String) :
    ops.foldl setPluginCompactionBridgeSessionKey init =
      (ops.getLast?).getD init := by
  induction ops generalizing init with
  | nil => rfl
  | cons a as ih =>
    simp [List.foldl_cons, ih, List.getLast?_cons,
      setPluginCompactionBridgeSessionKey]

/-- C1: `resolveModel` is a total function (never raises); its `model`
field is `none` exactly when no provider id is given (empty string), and
every non-empty provider id yields some `ResolvedModel` descriptor —
unknown providers and unknown models degrade to a fallback descriptor. -/
theorem resolveModel_never_hard_fails
    (providerId modelId ctx : String) (config : OpenClawConfig) :
    (providerId = "" → (resolveModel providerId modelId ctx config).model = none)
    ∧ (providerId ≠ "" →
        ∃ rm, (resolveModel providerId modelId ctx config).model = some rm) := by
  constructor
  · intro h
    subst h
    simp [resolveModel]
  · intro h
    simp only [resolveModel]
    rw [if_neg (by simpa using h)]
    cases hf : inlineMatch providerId modelId (lookupProvider config providerId) with
    | none => exact ⟨_, rfl⟩
    | some rm => exact ⟨rm, rfl⟩

theorem resolveModel_never_hard_fails_witness :
    (resolveModel "" "m" "/tmp/agent" sampleConfig).model = none
    ∧ ∃ rm, (resolveModel "custom" "m" "/tmp/agent" sampleConfig).model = some rm :=
  ⟨(resolveModel_never_hard_fails "" "m" "/tmp/agent" sampleConfig).1 rfl,
   (resolveModel_never_hard_fails "custom" "m" "/tmp/agent" sampleConfig).2
     (by decide)⟩

/-- C2: resolving a model id not declared under a known provider yields a
fallback whose `baseUrl` is the provider's configured `baseUrl`, whose
`provider` is the requested provider id verbatim (not trimmed), and whose
`id` is the requested model id verbatim. -/
theorem resolveModel_unknown_model_fallback
    (providerId modelId ctx : String) (config : OpenClawConfig)
    (pc : ModelProviderConfig)
    (hne : providerId ≠ "")
    (hlook : lookupProvider config providerId = some pc)
    (hmiss : ∀ m ∈ pc.models, m.id ≠ modelId) :
    ∃ rm, (resolveModel providerId modelId ctx config).model = some rm
      ∧ rm.baseUrl = some pc.baseUrl
      ∧ rm.provider = providerId
      ∧ rm.id = modelId := by
  refine ⟨fallbackModel providerId modelId (some pc), ?_, rfl, rfl, rfl⟩
  simp only [resolveModel, inlineMatch]
  rw [if_neg (by simpa using hne), hlook, Option.some_bind,
    find?_builder_eq_none hmiss]

theorem resolveModel_unknown_model_fallback_witness :
    ∃ rm, (resolveModel "custom" "missing-model" "/tmp/agent" sampleConfig).model
        = some rm
      ∧ rm.baseUrl = some "http://localhost:9000"
      ∧ rm.provider = "custom"
      ∧ rm.id = "missing-model" :=
  resolveModel_unknown_model_fallback "custom" "missing-model" "/tmp/agent"
    sampleConfig customProvider (by decide) (by decide) (by decide)

/-- C3: in the builder's output, `api` and `azureDeploymentName` carry the
model-level value when the model sets one, otherwise the provider-level
value (absent when neither sets it); `azureApiVersion` always carries the
provider-level value, since the model schema declares no such field. -/
theorem buildInlineProviderModels_inheritance
    (providers : List (String × ModelProviderConfig)) (rm : ResolvedModel)
    (hrm : rm ∈ buildInlineProviderModels providers) :
    ∃ kp ∈ providers, ∃ m ∈ kp.2.models, rm.id = m.id
      ∧ (∀ a, m.api = some a → rm.api = some a)
      ∧ (m.api = none → rm.api = kp.2.api)
      ∧ (∀ d, m.azureDeploymentName = some d → rm.azureDeploymentName = some d)
      ∧ (m.azureDeploymentName = none →
          rm.azureDeploymentName = kp.2.azureDeploymentName)
      ∧ rm.azureApiVersion = kp.2.azureApiVersion := by
  rw [mem_buildInline_iff] at hrm
  obtain ⟨kp, hkp, m, hm, rfl⟩ := hrm
  refine ⟨kp, hkp, m, hm, rfl, ?_, ?_, ?_, ?_, rfl⟩
  · intro a ha
    simp [buildOneModel, ha]
  · intro ha
    simp [buildOneModel, ha]
  · intro d hd
    simp [buildOneModel, hd]
  · intro hd
    simp [buildOneModel, hd]

theorem buildInlineProviderModels_inheritance_witness :
    ∃ kp ∈ [(" alpha ", alphaProvider)], ∃ m ∈ kp.2.models,
      alphaResolved.id = m.id
      ∧ (∀ a, m.api = some a → alphaResolved.api = some a)
      ∧ (m.api = none → alphaResolved.api = kp.2.api)
      ∧ (∀ d, m.azureDeploymentName = some d →
          alphaResolved.azureDeploymentName = some d)
      ∧ (m.azureDeploymentName = none →
          alphaResolved.azureDeploymentName = kp.2.azureDeploymentName)
      ∧ alphaResolved.azureApiVersion = kp.2.azureApiVersion :=
  buildInlineProviderModels_inheritance [(" alpha ", alphaProvider)]
    alphaResolved (List.mem_singleton.mpr rfl)

/-- C4: when the provider declares a model with the requested id, the
resolver returns exactly the inline-built descriptor found by the id
search, and resolving the same request twice yields equal results. -/
theorem resolveModel_known_model_inline
    (providerId modelId ctx : String) (config : OpenClawConfig)
    (pc : ModelProviderConfig)
    (hne : providerId ≠ "")
    (hlook : lookupProvider config providerId = some pc)
    (hdecl : ∃ m ∈ pc.models, m.id = modelId) :
    ∃ rm, (buildInlineProviderModels [(providerId, pc)]).find?
        (fun r => r.id == modelId) = some rm
      ∧ (resolveModel providerId modelId ctx config).model = some rm
      ∧ resolveModel providerId modelId ctx config
          = resolveModel providerId modelId ctx config := by
  obtain ⟨m, hm, hid⟩ := hdecl
  have hsome : ((buildInlineProviderModels [(providerId, pc)]).find?
      (fun r => r.id == modelId)).isSome := by
    rw [List.find?_isSome]
    refine ⟨buildOneModel providerId pc m, ?_, ?_⟩
    · rw [mem_buildInline_iff]
      exact ⟨(providerId, pc), List.mem_singleton.mpr rfl, m, hm, rfl⟩
    · simpa [buildOneModel] using hid
  obtain ⟨rm, hrm⟩ := Option.isSome_iff_exists.mp hsome
  refine ⟨rm, hrm, ?_, rfl⟩
  simp only [resolveModel, inlineMatch]
  rw [if_neg (by simpa using hne), hlook, Option.some_bind, hrm]

theorem resolveModel_known_model_inline_witness :
    ∃ rm, (buildInlineProviderModels [("alpha", alphaProvider)]).find?
        (fun r => r.id == "alpha-model") = some rm
      ∧ (resolveModel "alpha" "alpha-model" "/tmp/agent" alphaConfig).model
          = some rm
      ∧ resolveModel "alpha" "alpha-model" "/tmp/agent" alphaConfig
          = resolveModel "alpha" "alpha-model" "/tmp/agent" alphaConfig :=
  resolveModel_known_model_inline "alpha" "alpha-model" "/tmp/agent"
    alphaConfig alphaProvider (by decide) (by decide)
    ⟨sampleModel "alpha-model", List.mem_singleton.mpr rfl, rfl⟩

/-- C5: the builder's output length is the sum of the providers' declared
model counts, and the output is the concatenation of the per-provider
expansions in mapping order (so order is providers in mapping order,
models within a provider in declared order; empty model lists contribute
nothing). -/
theorem buildInlineProviderModels_count_order
    (providers : List (String × ModelProviderConfig)) :
    (buildInlineProviderModels providers).length
      = (providers.map fun kp => kp.2.models.length).sum
    ∧ buildInlineProviderModels providers
      = (providers.map fun kp => buildInlineProviderModels [kp]).flatten := by
  induction providers with
  | nil => exact ⟨rfl, rfl⟩
  | cons kp rest ih =>
    refine ⟨?_, ?_⟩
    · simp [buildInlineProviderModels, List.flatMap_cons] at ih ⊢
      omega
    · simp [buildInlineProviderModels, List.flatMap_cons] at ih ⊢
      exact ih.2

/-- C6: every model the builder produces for a provider key carries the
key with surrounding whitespace trimmed as its `provider` field —
including all-whitespace and empty keys, which are normalized, never
rejected. -/
theorem buildInlineProviderModels_provider_trimmed
    (key : String) (p : ModelProviderConfig) (rm : ResolvedModel)
    (hrm : rm ∈ buildInlineProviderModels [(key, p)]) :
    rm.provider = key.trim := by
  rw [mem_buildInline_iff] at hrm
  obtain ⟨kp, hkp, m, hm, rfl⟩ := hrm
  rw [List.mem_singleton] at hkp
  subst hkp
  rfl

theorem buildInlineProviderModels_provider_trimmed_witness :
    alphaResolved.provider = " alpha ".trim :=
  buildInlineProviderModels_provider_trimmed " alpha " alphaProvider
    alphaResolved (List.mem_singleton.mpr rfl)

/-- C7: on the fallback path, provider id `azure-openai` with no explicit
`api` configured yields `api = azure-openai-responses`; any other provider
id inherits the provider's configured `api` when set and leaves it
undefined otherwise. -/
theorem resolveModel_fallback_api_default
    (providerId modelId ctx : String) (config : OpenClawConfig)
    (hne : providerId ≠ "")
    (hmiss : ∀ pc, lookupProvider config providerId = some pc →
      ∀ m ∈ pc.models, m.id ≠ modelId) :
    ∃ rm, (resolveModel providerId modelId ctx config).model = some rm
      ∧ (providerId = "azure-openai" →
          (lookupProvider config providerId).bind (fun pc => pc.api) = none →
          rm.api = some ModelApi.azureOpenaiResponses)
      ∧ (providerId ≠ "azure-openai" →
          rm.api = (lookupProvider config providerId).bind fun pc => pc.api) := by
  refine ⟨fallbackModel providerId modelId (lookupProvider config providerId),
    ?_, ?_, ?_⟩
  · simp only [resolveModel, inlineMatch]
    rw [if_neg (by simpa using hne)]
    cases hl : lookupProvider config providerId with
    | none => rfl
    | some pc =>
      rw [Option.some_bind, find?_builder_eq_none (hmiss pc hl)]
  · intro haz hapi
    show fallbackApi providerId (lookupProvider config providerId)
      = some ModelApi.azureOpenaiResponses
    unfold fallbackApi
    rw [hapi]
    simp [haz]
  · intro hnaz
    show fallbackApi providerId (lookupProvider config providerId)
      = (lookupProvider config providerId).bind fun pc => pc.api
    unfold fallbackApi
    cases hb : (lookupProvider config providerId).bind (fun p => p.api) with
    | some a => rfl
    | none => simp [hnaz]

theorem resolveModel_fallback_api_default_witness :
    ∃ rm, (resolveModel "azure-openai" "gpt-4o" "/tmp/agent" azureConfig).model
        = some rm
      ∧ ("azure-openai" = "azure-openai" →
          (lookupProvider azureConfig "azure-openai").bind (fun pc => pc.api)
            = none →
          rm.api = some ModelApi.azureOpenaiResponses)
      ∧ ("azure-openai" ≠ "azure-openai" →
          rm.api = (lookupProvider azureConfig "azure-openai").bind
            fun pc => pc.api) :=
  resolveModel_fallback_api_default "azure-openai" "gpt-4o" "/tmp/agent"
    azureConfig (by decide)
    (by
      intro pc hpc m hm
      have h2 : lookupProvider azureConfig "azure-openai" = some azureProvider :=
        by decide
      rw [h2] at hpc
      injection hpc with h3
      subst h3
      simp [azureProvider] at hm)

/-- C9: every model the builder produces carries its provider's
`azureApiVersion` (absent when the provider sets none): the model schema
declares no `azureApiVersion` field, so no model-level override exists. -/
theorem buildInlineProviderModels_azureApiVersion_provider_only
    (providers : List (String × ModelProviderConfig)) (rm : ResolvedModel)
    (hrm : rm ∈ buildInlineProviderModels providers) :
    ∃ kp ∈ providers, rm.azureApiVersion = kp.2.azureApiVersion := by
  rw [mem_buildInline_iff] at hrm
  obtain ⟨kp, hkp, m, hm, rfl⟩ := hrm
  exact ⟨kp, hkp, rfl⟩

theorem buildInlineProviderModels_azureApiVersion_provider_only_witness :
    ∃ kp ∈ [("azure-openai", azureFullProvider)],
      azureResolved.azureApiVersion = kp.2.azureApiVersion :=
  buildInlineProviderModels_azureApiVersion_provider_only
    [("azure-openai", azureFullProvider)] azureResolved
    (List.mem_singleton.mpr rfl)

/-- C8: for a `session_before_compact` event, the bridge returns no
cancellation when no hook runner exists or no `before_compaction` hook is
registered; when a hook is registered it returns `{cancel := true}`
exactly when the hook result requests cancellation, and nothing
otherwise. -/
theorem sessionBeforeCompact_bridge_contract
    (hookRunner : Option HookRunner) (sessionKey : Option String)
    (ev : SessionBeforeCompactEvent) :
    ((hookRunner = none
        ∨ ∃ r, hookRunner = some r ∧ r.hasHooks "before_compaction" = false) →
      sessionBeforeCompactHandler hookRunner sessionKey ev = none)
    ∧ (∀ r, hookRunner = some r → r.hasHooks "before_compaction" = true →
        (cancelRequested (r.runBeforeCompaction (beforeCompactionInput ev)
            { sessionKey := sessionKey }) = true →
          sessionBeforeCompactHandler hookRunner sessionKey ev
            = some { cancel := true })
        ∧ (cancelRequested (r.runBeforeCompaction (beforeCompactionInput ev)
            { sessionKey := sessionKey }) = false →
          sessionBeforeCompactHandler hookRunner sessionKey ev = none)) := by
  constructor
  · rintro (rfl | ⟨r, rfl, hfalse⟩)
    · rfl
    · simp [sessionBeforeCompactHandler, hfalse]
  · rintro r rfl htrue
    refine ⟨fun hc => ?_, fun hc => ?_⟩ <;>
      simp [sessionBeforeCompactHandler, htrue, hc]

theorem sessionBeforeCompact_bridge_contract_witness :
    sessionBeforeCompactHandler (some demoRunner) (some "k") demoEvent
      = some { cancel := true } :=
  ((sessionBeforeCompact_bridge_contract (some demoRunner) (some "k")
    demoEvent).2 demoRunner rfl rfl).1 rfl

/-- C10: after any sequence of `setPluginCompactionBridgeSessionKey`
calls, the shared bridge state equals the most recently supplied key
(`none` when never set), and both event handlers pass exactly that state
as the hook context's `sessionKey` — one module-level variable shared by
both handlers, not per-session state. -/
theorem bridge_sessionKey_most_recent
    (ops : List (Option String)) (hookRunner : Option HookRunner)
    (ev : SessionBeforeCompactEvent) (ev2 : SessionCompactEvent) :
    runSetters ops = (ops.getLast?).getD none
    ∧ (∀ call, sessionBeforeCompactHookCall hookRunner (runSetters ops) ev
          = some call →
        call.2.sessionKey = (ops.getLast?).getD none)
    ∧ (∀ call, sessionCompactHandler hookRunner (runSetters ops) ev2
          = some call →
        call.2.sessionKey = (ops.getLast?).getD none) := by
  have h := foldl_setKey_last ops none
  refine ⟨h, ?_, ?_⟩
  · intro call hc
    cases hookRunner with
    | none => exact absurd hc (by simp [sessionBeforeCompactHookCall])
    | some r =>
      by_cases hh : r.hasHooks "before_compaction"
      · simp only [sessionBeforeCompactHookCall, hh, if_true] at hc
        have hcall := Option.some_inj.mp hc
        rw [← hcall]
        exact h
      · simp [sessionBeforeCompactHookCall, hh] at hc
  · intro call hc
    cases hookRunner with
    | none => exact absurd hc (by simp [sessionCompactHandler])
    | some r =>
      by_cases hh : r.hasHooks "after_compaction"
      · simp only [sessionCompactHandler, hh, if_true] at hc
        have hcall := Option.some_inj.mp hc
        rw [← hcall]
        exact h
      · simp [sessionCompactHandler, hh] at hc

theorem bridge_sessionKey_most_recent_witness :
    demoCall.2.sessionKey
      = (([some "alpha-key", some "beta-key"].getLast?).getD none) :=
  (bridge_sessionKey_most_recent [some "alpha-key", some "beta-key"]
    (some demoRunner) demoEvent {}).2.1 demoCall rfl
